import Mathlib

/-
Verification development for the resume_matching repository.

The repository consists of three FastAPI endpoint files:
  - src/resume.py   : POST /extract-experience-skills/ into a single MongoDB
                      collection, with an S3 artifact store.
  - src/resume2.py  : the same endpoint, but the record is inserted into one of
                      two collections (students / jobseekers) selected by a
                      user_type form field.
  - src/jd.py       : POST /upload/ for job descriptions, MongoDB only.

Shallow embedding conventions:
  - a Python str is modelled as List Char; Python bytes as List Nat;
  - the external collaborators (PyMuPDF, python-docx, the UTF-8 codec, the
    Gemini generation API, the Cohere embedding API) are oracle functions in
    an Env record; a None result models the library raising an exception;
  - MongoDB collections are lists of records; find_one takes the first match,
    insert_one appends, update_one with a full document replaces the first
    matching record (the code sets every field of the document);
  - the S3 store is an association list from key to bytes; put_object is
    modelled by consing (lookup takes the first binding, so consing models
    overwrite); get_object is a lookup, returning None when the key is absent;
  - each handler returns its final state, the ordered list of external
    operations it performed (the event trace), and its HTTP outcome.  In all
    three source files the whole handler body sits inside
    try: ... except Exception as e: raise HTTPException(500, ...), and
    fastapi.HTTPException is a subclass of Exception, so every exception
    raised in the body - including the explicit HTTPException(400, ...)
    raises - is caught and re-surfaced to the client with status 500.  The
    outcome therefore records status 500 together with the caught inner
    exception, from which the real response detail string is rendered.
-/

set_option autoImplicit false

namespace ResumeMatching

/-! ## Python string primitives (str is List Char, bytes is List Nat) -/

/-- Python substring membership test, needle m in haystack s. -/
def pyIn (m : List Char) : List Char → Bool
  | [] => m.isEmpty
  | c :: cs => m.isPrefixOf (c :: cs) || pyIn m cs

/-- Everything after the first occurrence of m in s; the empty list when m
does not occur.  For m occurring in s, s.split(m) in Python has
afterFirst m s as the concatenation of the remaining components. -/
def afterFirst (m : List Char) : List Char → List Char
  | [] => []
  | c :: cs => if m.isPrefixOf (c :: cs) then (c :: cs).drop m.length else afterFirst m cs

/-- Everything strictly before the first occurrence of m in s; all of s when m
does not occur.  beforeFirst m s is s.split(m)[0] in Python, and
beforeFirst m (afterFirst m s) is s.split(m)[1] when m occurs in s. -/
def beforeFirst (m : List Char) : List Char → List Char
  | [] => []
  | c :: cs => if m.isPrefixOf (c :: cs) then [] else c :: beforeFirst m cs

/-- Python str.strip(): whitespace removed from both ends. -/
def pyStrip (s : List Char) : List Char :=
  ((s.dropWhile Char.isWhitespace).reverse.dropWhile Char.isWhitespace).reverse

/-- Python str.lower(), restricted to ASCII as in the file extensions at hand. -/
def pyLower (s : List Char) : List Char := s.map Char.toLower

/-- Python filename.split(char)[-1] for a single separator character:
the part of the list after the last occurrence of the separator, the whole
list when the separator does not occur. -/
def afterLastSep (sep : Char) (s : List Char) : List Char :=
  (s.reverse.takeWhile (fun c => !(c == sep))).reverse

/-- Embeds file.filename.split(".")[-1].lower(), the declared-extension
computation shared by all three handlers
(src/resume.py line 98, src/resume2.py line 124, src/jd.py line 45). -/
def file_extension (filename : List Char) : List Char :=
  pyLower (afterLastSep '.' filename)

/-- Python "\n".join. -/
def joinNl : List (List Char) → List Char
  | [] => []
  | [t] => t
  | t :: ts => (t ++ ('\n' :: joinNl ts))

/-- Split at every newline, keeping empty components. -/
def splitNl : List Char → List (List Char)
  | [] => [[]]
  | c :: cs =>
    if c == '\n' then [] :: splitNl cs
    else
      match splitNl cs with
      | [] => [[c]]
      | h :: t => (c :: h) :: t

/-- Python str.splitlines(), restricted to the newline terminator: a trailing
newline does not produce a final empty line, and the empty string has no
lines.  (Python also breaks on carriage returns and some unicode
terminators; the claims under verification do not depend on those.) -/
def splitlines (s : List Char) : List (List Char) :=
  let parts := splitNl s
  if parts.getLast? == some ([] : List Char) then parts.dropLast else parts

/-! ## Response parsing (src/resume.py lines 133-151, src/resume2.py 156-174)

The code is
  if "Years of Experience:" in answer:
      experience_match = answer.split("Years of Experience:")[1].split("\n")[0].strip()
  if "Skills:" in answer:
      skills_match = answer.split("Skills:")[1].strip()
and split(m)[1] is the segment strictly between the first and the second
occurrence of m (the rest of the string when m occurs only once), which is
beforeFirst m (afterFirst m answer). -/

def yearsMarker : List Char := "Years of Experience:".toList

def skillsMarker : List Char := "Skills:".toList

def newlineMarker : List Char := ['\n']

/-- The experience_match variable: None when the marker is absent. -/
def experience_match (answer : List Char) : Option (List Char) :=
  if pyIn yearsMarker answer then
    some (pyStrip (beforeFirst newlineMarker (beforeFirst yearsMarker (afterFirst yearsMarker answer))))
  else none

/-- The skills_match variable: None when the marker is absent. -/
def skills_match (answer : List Char) : Option (List Char) :=
  if pyIn skillsMarker answer then
    some (pyStrip (beforeFirst skillsMarker (afterFirst skillsMarker answer)))
  else none

def NAValue : List Char := "N/A".toList

/-- Embeds the Python expression (x if x else "N/A"): both None and the empty
string are falsy, so both collapse to N/A in the persisted record. -/
def fieldValue (m : Option (List Char)) : List Char :=
  match m with
  | some v => if v.isEmpty then NAValue else v
  | none => NAValue

/-! ## External collaborators and error taxonomy -/

/-- The oracles for the external libraries and services.  A None result
models the underlying call raising an exception.  pdfExtract gives the list
of page texts, docxExtract the list of paragraph texts, utf8Decode the
decoded text of a byte sequence, gemini the generation response for a
prompt, embedSer the JSON-serialized embedding vector list for a text
(the floating point vectors themselves stay inside the oracle). -/
structure Env where
  bucket : List Char
  pdfExtract : List Nat → Option (List (List Char))
  docxExtract : List Nat → Option (List (List Char))
  utf8Decode : List Nat → Option (List Char)
  gemini : List Char → Option (List Char)
  embedSer : List Char → Option (List Char)
  now : Nat

/-- A Python exception reaching the outer except handler: either an
HTTPException carrying a status and detail, or a plain library exception
carrying its message. -/
inductive Exc where
  | http (status : Nat) (detail : List Char)
  | lib (detail : List Char)
  deriving DecidableEq

/-- HTTP outcome of the resume endpoints: the JSONResponse payload
(document_id, answer) on success, otherwise the status of the response
together with the exception the outer handler caught. -/
inductive RResult where
  | ok (document_id : List Char) (answer : List Char)
  | failure (status : Nat) (caught : Exc)
  deriving DecidableEq

/-- HTTP outcome of the job-description endpoint. -/
inductive JdResult where
  | ok (message : List Char) (file_name : List Char)
  | failure (status : Nat) (caught : Exc)
  deriving DecidableEq

/-- One external side-effecting operation of a request, in program order. -/
inductive Event where
  | dbFind
  | s3Get
  | s3Put
  | extract
  | gemini
  | cohere
  | dbUpdate
  | dbInsert
  deriving DecidableEq

/-- An object-storage network operation. -/
def isS3Ev : Event → Bool
  | Event.s3Get => true
  | Event.s3Put => true
  | _ => false

/-- Index of the first occurrence of an event (length of the list when
absent); used to speak about the order of steps in a trace. -/
def posOf (e : Event) : List Event → Nat
  | [] => 0
  | x :: xs => if x == e then 0 else posOf e xs + 1

/-! ## Data model -/

/-- The persisted resume record (document_data in src/resume.py lines
146-154, resume_data in src/resume2.py lines 169-177).  body_text is the
field called all_content in resume.py and text in resume2.py. -/
structure RecordDoc where
  file_name : List Char
  s3_url : List Char
  body_text : List Char
  technical_skills : List Char
  years_of_experience : List Char
  embeddings : List Char
  uploaded_at : Nat
  deriving DecidableEq

/-- The persisted job-description record (src/jd.py lines 60-64). -/
structure JdRecord where
  file_name : List Char
  content : List Char
  uploaded_at : Nat
  deriving DecidableEq

/-- collection.find_one with filter on file_name: first matching record. -/
def find_one (coll : List RecordDoc) (fn : List Char) : Option RecordDoc :=
  coll.find? (fun r => r.file_name == fn)

/-- collection.update_one with a filter on file_name and a full-document set:
replaces the first matching record. -/
def update_one (coll : List RecordDoc) (fn : List Char) (doc : RecordDoc) : List RecordDoc :=
  match coll with
  | [] => []
  | r :: rs => if r.file_name == fn then doc :: rs else r :: update_one rs fn doc

/-- S3 get_object: first binding of the key. -/
def s3Find (store : List (List Char × List Nat)) (key : List Char) : Option (List Nat) :=
  (store.find? (fun kv => kv.1 == key)).map (fun kv => kv.2)

/-- S3 put_object: consing shadows any previous binding of the key. -/
def s3PutOp (store : List (List Char × List Nat)) (key : List Char) (content : List Nat) :
    List (List Char × List Nat) :=
  (key, content) :: store

/-- State touched by src/resume.py: the S3 bucket and the documents
collection of the user_data database. -/
structure RState where
  s3 : List (List Char × List Nat)
  docs : List RecordDoc
  deriving DecidableEq

/-- State touched by src/resume2.py: the S3 bucket and the students and
jobseekers collections of the test database. -/
structure R2State where
  s3 : List (List Char × List Nat)
  students : List RecordDoc
  jobseekers : List RecordDoc
  deriving DecidableEq

/-! ## Prompt and external calls -/

def promptHeader : List Char :=
  ("\n    Extract ONLY the total years of experience and list of skills from the following document.\n    ---------------------\n    ").toList

def promptFooter : List Char :=
  ("\n    ---------------------\n    Provide the answer in the format:\n    Years of Experience: <number> \n\n    Skills: <comma-separated list>\n    ").toList

/-- The f-string prompt of synthesize_answer with context_str spliced in. -/
def synth_prompt (contextStr : List Char) : List Char :=
  promptHeader ++ (contextStr ++ promptFooter)

/-- synthesize_answer: joins the texts with newlines, builds the prompt and
calls the generation service; None models the Gemini client raising. -/
def synthesize_answer (env : Env) (texts : List (List Char)) : Option (List Char) :=
  env.gemini (synth_prompt (joinNl texts))

/-! ## Error details (the variable parts of the f-strings are elided:
the claims under verification depend only on the statuses) -/

def unsupportedDetail : List Char := "Unsupported file type".toList

def s3GetFailDetail : List Char := "Failed to retrieve file from S3: ".toList

def geminiFailDetail : List Char := "Error communicating with Gemini API: ".toList

def cohereFailDetail : List Char := "Cohere embedding fetch failed: ".toList

def pdfLibDetail : List Char := "error opening pdf stream".toList

def docxLibDetail : List Char := "error opening docx package".toList

def decodeLibDetail : List Char := "UnicodeDecodeError".toList

def invalidUserTypeDetail : List Char := "Invalid user type. Must be student or jobseeker.".toList

def jdDocxFailDetail : List Char := "Error processing DOCX file: ".toList

def jdPdfFailDetail : List Char := "Error processing PDF file: ".toList

def jdDecodeFailDetail : List Char := "Error decoding txt file: ".toList

def jdOkMessage : List Char := "Job description uploaded successfully".toList

/-! ## Text extraction dispatch (src/resume.py lines 115-125,
src/resume2.py lines 139-150) -/

/-- The extension dispatch of the resume handlers: pdf pages, docx
paragraphs, txt lines, otherwise HTTPException(400).  The event list records
whether a parsing library ran; library failures are plain exceptions, not
HTTPExceptions (the resume handlers have no inner try around extraction). -/
def extract_texts (env : Env) (ext : List Char) (content : List Nat) :
    List Event × Except Exc (List (List Char)) :=
  if ext == "pdf".toList then
    match env.pdfExtract content with
    | some ts => ([Event.extract], Except.ok ts)
    | none => ([Event.extract], Except.error (Exc.lib pdfLibDetail))
  else if ext == "docx".toList then
    match env.docxExtract content with
    | some ts => ([Event.extract], Except.ok ts)
    | none => ([Event.extract], Except.error (Exc.lib docxLibDetail))
  else if ext == "txt".toList then
    match env.utf8Decode content with
    | some t => ([Event.extract], Except.ok (splitlines t))
    | none => ([Event.extract], Except.error (Exc.lib decodeLibDetail))
  else
    ([], Except.error (Exc.http 400 unsupportedDetail))

/-- The S3 URL recorded in the document, https://bucket.s3.amazonaws.com/key. -/
def s3_url_of (env : Env) (key : List Char) : List Char :=
  "https://".toList ++ (env.bucket ++ (".s3.amazonaws.com/".toList ++ key))

/-- The document assembled for persistence (document_data / resume_data).
The skills and experience fields go through the Python truthiness default,
so an absent marker and an empty stripped value both persist as N/A. -/
def mk_document_data (env : Env) (fn key answer allContent emb : List Char) : RecordDoc :=
  { file_name := fn,
    s3_url := s3_url_of env key,
    body_text := allContent,
    technical_skills := fieldValue (skills_match answer),
    years_of_experience := fieldValue (experience_match answer),
    embeddings := emb,
    uploaded_at := env.now }

/-- Outcome of a resume request: final state, event trace, HTTP result. -/
abbrev ROutcome := RState × List Event × RResult

/-- Outcome of a resume2 request. -/
abbrev R2Outcome := R2State × List Event × RResult

/-- Prepends already-performed events to the trace of a continuation. -/
def prependEvents (pre : List Event) : ROutcome → ROutcome
  | (s, evs, r) => (s, pre ++ evs, r)

/-- Prepends already-performed events, resume2 version. -/
def prependEvents2 (pre : List Event) : R2Outcome → R2Outcome
  | (s, evs, r) => (s, pre ++ evs, r)

/-! ## src/resume.py endpoint -/

/-- The part of the resume.py handler after the storage step (lines 114-162):
extraction, generation, parsing, embedding, then update or insert according
to whether the earlier find_one had found a record.  content holds the bytes
the storage step selected (fetched artifact when the record existed, the
fresh upload otherwise). -/
def ingest_tail (env : Env) (fn ext key : List Char) (content : List Nat)
    (s : RState) (existed : Bool) : ROutcome :=
  match extract_texts env ext content with
  | (evs, Except.error e) => (s, evs, RResult.failure 500 e)
  | (evs, Except.ok texts) =>
    match synthesize_answer env texts with
    | none => (s, evs ++ [Event.gemini], RResult.failure 500 (Exc.http 500 geminiFailDetail))
    | some answer =>
      let allContent := joinNl texts
      match env.embedSer allContent with
      | none => (s, evs ++ [Event.gemini, Event.cohere],
                 RResult.failure 500 (Exc.http 500 cohereFailDetail))
      | some emb =>
        let doc := mk_document_data env fn key answer allContent emb
        if existed then
          ({ s with docs := update_one s.docs fn doc },
           evs ++ [Event.gemini, Event.cohere, Event.dbUpdate],
           RResult.ok fn answer)
        else
          ({ s with docs := s.docs ++ [doc] },
           evs ++ [Event.gemini, Event.cohere, Event.dbInsert],
           RResult.ok fn answer)

/-- The extract_experience_skills handler of src/resume.py (lines 92-166).
Order as in the source: extension and bytes are read, find_one runs, then
the single S3 operation (get when the record exists - the uploaded bytes are
discarded in that branch - put otherwise), then extraction and the rest.
Every failure surfaces as status 500 because the outer except re-wraps all
exceptions, including the explicit HTTPException(400) raises. -/
def extract_experience_skills (env : Env) (filename : List Char) (content : List Nat)
    (s : RState) : ROutcome :=
  let ext := file_extension filename
  let key := "resumes/".toList ++ filename
  match find_one s.docs filename with
  | some _ =>
    match s3Find s.s3 key with
    | none => (s, [Event.dbFind, Event.s3Get],
               RResult.failure 500 (Exc.http 500 s3GetFailDetail))
    | some stored =>
      prependEvents [Event.dbFind, Event.s3Get] (ingest_tail env filename ext key stored s true)
  | none =>
    prependEvents [Event.dbFind, Event.s3Put]
      (ingest_tail env filename ext key content
        { s with s3 := s3PutOp s.s3 key content } false)

/-- Sequential execution of resume.py requests, each with its own
environment, filename and content. -/
def runSeq (reqs : List (Env × List Char × List Nat)) (s : RState) : RState :=
  match reqs with
  | [] => s
  | (env, fn, content) :: rest => runSeq rest (extract_experience_skills env fn content s).1

/-! ## src/resume2.py endpoint -/

/-- The part of the resume2.py handler after the storage step (lines
139-190): extraction, generation, parsing, embedding, then the user_type
dispatch.  A record is always inserted, never updated; the lowered and
stripped user_type selects the collection, anything else raises
HTTPException(400) - after the S3 and AI work already happened. -/
def ingest_tail2 (env : Env) (fn ext key : List Char) (content : List Nat)
    (s : R2State) (user_type : List Char) : R2Outcome :=
  match extract_texts env ext content with
  | (evs, Except.error e) => (s, evs, RResult.failure 500 e)
  | (evs, Except.ok texts) =>
    match synthesize_answer env texts with
    | none => (s, evs ++ [Event.gemini], RResult.failure 500 (Exc.http 500 geminiFailDetail))
    | some answer =>
      let textCombined := joinNl texts
      match env.embedSer textCombined with
      | none => (s, evs ++ [Event.gemini, Event.cohere],
                 RResult.failure 500 (Exc.http 500 cohereFailDetail))
      | some emb =>
        let doc := mk_document_data env fn key answer textCombined emb
        let ut := pyStrip (pyLower user_type)
        if ut == "student".toList then
          ({ s with students := s.students ++ [doc] },
           evs ++ [Event.gemini, Event.cohere, Event.dbInsert],
           RResult.ok fn answer)
        else if ut == "jobseeker".toList then
          ({ s with jobseekers := s.jobseekers ++ [doc] },
           evs ++ [Event.gemini, Event.cohere, Event.dbInsert],
           RResult.ok fn answer)
        else
          (s, evs ++ [Event.gemini, Event.cohere],
           RResult.failure 500 (Exc.http 400 invalidUserTypeDetail))

/-- The extract_experience_skills handler of src/resume2.py (lines 113-194).
The existence check is
  students.find_one(...) or jobseekers.find_one(...)
so the second lookup runs only when the first finds nothing; the S3 key
prefix is resume/ rather than resumes/. -/
def extract_experience_skills2 (env : Env) (filename : List Char) (content : List Nat)
    (user_type : List Char) (s : R2State) : R2Outcome :=
  let ext := file_extension filename
  let key := "resume/".toList ++ filename
  match find_one s.students filename with
  | some _ =>
    match s3Find s.s3 key with
    | none => (s, [Event.dbFind, Event.s3Get],
               RResult.failure 500 (Exc.http 500 s3GetFailDetail))
    | some stored =>
      prependEvents2 [Event.dbFind, Event.s3Get]
        (ingest_tail2 env filename ext key stored s user_type)
  | none =>
    match find_one s.jobseekers filename with
    | some _ =>
      match s3Find s.s3 key with
      | none => (s, [Event.dbFind, Event.dbFind, Event.s3Get],
                 RResult.failure 500 (Exc.http 500 s3GetFailDetail))
      | some stored =>
        prependEvents2 [Event.dbFind, Event.dbFind, Event.s3Get]
          (ingest_tail2 env filename ext key stored s user_type)
    | none =>
      prependEvents2 [Event.dbFind, Event.dbFind, Event.s3Put]
        (ingest_tail2 env filename ext key content
          { s with s3 := s3PutOp s.s3 key content } user_type)

/-! ## src/jd.py endpoint -/

/-- The upload_job_description handler of src/jd.py (lines 38-69).  No
object storage; extraction dispatch order docx, pdf, txt as in the source;
the txt decode failure raises HTTPException(400) inside the body and the
docx and pdf helper failures raise HTTPException(500); the outer except
turns every one of them into a 500 response. -/
def upload_job_description (env : Env) (filename : List Char) (content : List Nat)
    (coll : List JdRecord) : List JdRecord × JdResult :=
  let ext := file_extension filename
  if ext == "docx".toList then
    match env.docxExtract content with
    | some ps =>
      (coll ++ [{ file_name := filename, content := joinNl ps, uploaded_at := env.now }],
       JdResult.ok jdOkMessage filename)
    | none => (coll, JdResult.failure 500 (Exc.http 500 jdDocxFailDetail))
  else if ext == "pdf".toList then
    match env.pdfExtract content with
    | some ps =>
      (coll ++ [{ file_name := filename, content := joinNl ps, uploaded_at := env.now }],
       JdResult.ok jdOkMessage filename)
    | none => (coll, JdResult.failure 500 (Exc.http 500 jdPdfFailDetail))
  else if ext == "txt".toList then
    match env.utf8Decode content with
    | some t =>
      (coll ++ [{ file_name := filename, content := t, uploaded_at := env.now }],
       JdResult.ok jdOkMessage filename)
    | none => (coll, JdResult.failure 500 (Exc.http 400 jdDecodeFailDetail))
  else (coll, JdResult.failure 500 (Exc.http 400 unsupportedDetail))

/-! ## Concrete instances used by counterexamples and witnesses -/

/-- A well-formatted generation response, the example from the spec. -/
def sampleAnswer : List Char := "Years of Experience: 5\nSkills: Python, Go".toList

/-- An environment in which every external call succeeds and the generation
service answers with the well-formatted sampleAnswer. -/
def trivEnv : Env :=
  { bucket := "bkt".toList,
    pdfExtract := fun _ => some ["resume body".toList],
    docxExtract := fun _ => some ["resume body".toList],
    utf8Decode := fun _ => some ("resume body".toList),
    gemini := fun _ => some sampleAnswer,
    embedSer := fun _ => some ("[[0.25]]".toList),
    now := 0 }

/-- Like trivEnv, except that UTF-8 decoding fails: the oracle for bytes
that are not valid UTF-8. -/
def noDecodeEnv : Env :=
  { trivEnv with utf8Decode := fun _ => none }

def emptyR : RState := { s3 := [], docs := [] }

def emptyR2 : R2State := { s3 := [], students := [], jobseekers := [] }

def fnPdf : List Char := "a.pdf".toList

def fnXyz : List Char := "a.xyz".toList

def fnTxt : List Char := "a.txt".toList

/-- State after one successful resume.py ingestion of a.pdf. -/
def oneDocState : RState := (extract_experience_skills trivEnv fnPdf [1] emptyR).1

/-- State after one successful resume2.py ingestion of a.pdf as a student. -/
def oneDocState2 : R2State :=
  (extract_experience_skills2 trivEnv fnPdf [1] "student".toList emptyR2).1

/-- Outcome of re-submitting a.pdf as a student a second time. -/
def secondRun2 : R2Outcome :=
  extract_experience_skills2 trivEnv fnPdf [2] "student".toList oneDocState2

/-! ## Helper lemmas on the Python string primitives -/

theorem pyIn_nil_left (s : List Char) : pyIn [] s = true := by
  cases s <;> simp [pyIn, List.isPrefixOf]

theorem pyIn_of_isPrefixOf {m s : List Char} (h : m.isPrefixOf s = true) :
    pyIn m s = true := by
  cases s with
  | nil =>
    have : m = [] := by
      cases m with
      | nil => rfl
      | cons c cs => simp [List.isPrefixOf] at h
    simp [this, pyIn]
  | cons c cs => simp [pyIn, h]

theorem pyIn_cons_false {m : List Char} {c : Char} {cs : List Char}
    (h : pyIn m (c :: cs) = false) :
    m.isPrefixOf (c :: cs) = false ∧ pyIn m cs = false := by
  simpa [pyIn] using h

theorem pyIn_append_marker (m a b : List Char) : pyIn m (a ++ (m ++ b)) = true := by
  induction a with
  | nil =>
    cases m with
    | nil => simpa using pyIn_nil_left b
    | cons c ms =>
      have hp : (c :: ms).isPrefixOf ((c :: ms) ++ b) = true :=
        List.isPrefixOf_iff_prefix.mpr (List.prefix_append _ _)
      simpa using pyIn_of_isPrefixOf hp
  | cons c a ih => simp [pyIn, ih]

theorem beforeFirst_eq_self_of_not_pyIn {m s : List Char} (h : pyIn m s = false) :
    beforeFirst m s = s := by
  induction s with
  | nil => rfl
  | cons c cs ih =>
    obtain ⟨h1, h2⟩ := pyIn_cons_false h
    simp [beforeFirst, h1, ih h2]

theorem not_isPrefixOf_of_first {m : List Char} (tail : List Char) {c : Char} {p : List Char}
    (h : pyIn m ((c :: p) ++ m.dropLast) = false) :
    m.isPrefixOf ((c :: p) ++ (m ++ tail)) = false := by
  by_contra hb
  have hb' : m.isPrefixOf ((c :: p) ++ (m ++ tail)) = true := by
    cases hx : m.isPrefixOf ((c :: p) ++ (m ++ tail)) with
    | false => exact absurd hx hb
    | true => rfl
  have hm : m ≠ [] := by
    intro he
    rw [he] at h
    simp [pyIn_nil_left] at h
  have hpre1 : m <+: ((c :: p) ++ (m ++ tail)) := List.isPrefixOf_iff_prefix.mp hb'
  have hsplit : ((c :: p) ++ (m ++ tail)) =
      ((c :: p) ++ m.dropLast) ++ ([m.getLast hm] ++ tail) := by
    rw [List.append_assoc, ← List.append_assoc m.dropLast _ _,
      List.dropLast_append_getLast hm]
  have hpre2 : ((c :: p) ++ m.dropLast) <+: ((c :: p) ++ (m ++ tail)) := by
    rw [hsplit]; exact List.prefix_append _ _
  have hlen : m.length ≤ ((c :: p) ++ m.dropLast).length := by
    have hm1 : 1 ≤ m.length := by
      cases m with
      | nil => exact absurd rfl hm
      | cons _ _ => simp
    simp only [List.length_append, List.length_cons, List.length_dropLast]
    omega
  have hfin : m <+: ((c :: p) ++ m.dropLast) :=
    List.prefix_of_prefix_length_le hpre1 hpre2 hlen
  have : pyIn m ((c :: p) ++ m.dropLast) = true :=
    pyIn_of_isPrefixOf (List.isPrefixOf_iff_prefix.mpr hfin)
  rw [this] at h
  exact absurd h (by simp)

theorem afterFirst_pre_marker (m : List Char) :
    ∀ pre tail : List Char, pyIn m (pre ++ m.dropLast) = false →
      afterFirst m (pre ++ (m ++ tail)) = tail := by
  intro pre
  induction pre with
  | nil =>
    intro tail h
    have hm : m ≠ [] := by
      intro he
      rw [he] at h
      simp [pyIn_nil_left] at h
    cases m with
    | nil => exact absurd rfl hm
    | cons c ms =>
      have hp : (c :: ms).isPrefixOf (c :: (ms ++ tail)) = true :=
        List.isPrefixOf_iff_prefix.mpr (List.prefix_append (c :: ms) tail)
      show afterFirst (c :: ms) (c :: (ms ++ tail)) = tail
      rw [afterFirst, if_pos hp]
      exact List.drop_left (c :: ms) tail
  | cons c p ih =>
    intro tail h
    have hnp := not_isPrefixOf_of_first tail h
    have h' : pyIn m (p ++ m.dropLast) = false :=
      (pyIn_cons_false (by simpa using h)).2
    show afterFirst m (c :: (p ++ (m ++ tail))) = tail
    rw [afterFirst, if_neg (by simp [show ((c :: p) ++ (m ++ tail)) = c :: (p ++ (m ++ tail)) from rfl] at hnp; simp [hnp])]
    exact ih tail h'

theorem beforeFirst_pre_marker (m : List Char) :
    ∀ pre tail : List Char, pyIn m (pre ++ m.dropLast) = false →
      beforeFirst m (pre ++ (m ++ tail)) = pre := by
  intro pre
  induction pre with
  | nil =>
    intro tail h
    have hm : m ≠ [] := by
      intro he
      rw [he] at h
      simp [pyIn_nil_left] at h
    cases m with
    | nil => exact absurd rfl hm
    | cons c ms =>
      have hp : (c :: ms).isPrefixOf (c :: (ms ++ tail)) = true :=
        List.isPrefixOf_iff_prefix.mpr (List.prefix_append (c :: ms) tail)
      show beforeFirst (c :: ms) (c :: (ms ++ tail)) = []
      rw [beforeFirst, if_pos hp]
  | cons c p ih =>
    intro tail h
    have hnp := not_isPrefixOf_of_first tail h
    have h' : pyIn m (p ++ m.dropLast) = false :=
      (pyIn_cons_false (by simpa using h)).2
    show beforeFirst m (c :: (p ++ (m ++ tail))) = c :: p
    rw [beforeFirst, if_neg (by simp [show ((c :: p) ++ (m ++ tail)) = c :: (p ++ (m ++ tail)) from rfl] at hnp; simp [hnp])]
    rw [ih tail h']

theorem takeWhile_all {α : Type} {p : α → Bool} {l : List α}
    (h : ∀ x ∈ l, p x = true) : l.takeWhile p = l :=
  List.takeWhile_eq_self_iff.mpr h

theorem takeWhile_append_stop {α : Type} {p : α → Bool} {l1 l2 : List α} {a : α}
    (h : ∀ x ∈ l1, p x = true) (ha : p a = false) :
    (l1 ++ (a :: l2)).takeWhile p = l1 := by
  induction l1 with
  | nil => simp [List.takeWhile, ha]
  | cons c cs ih =>
    have hc : p c = true := h c (by simp)
    have hrest : ∀ x ∈ cs, p x = true := fun x hx => h x (by simp [hx])
    simp [List.takeWhile, hc, ih hrest]

theorem afterLastSep_append {sep : Char} {pre post : List Char}
    (h : ∀ ch ∈ post, ch ≠ sep) :
    afterLastSep sep (pre ++ (sep :: post)) = post := by
  unfold afterLastSep
  have hrev : (pre ++ (sep :: post)).reverse = post.reverse ++ (sep :: pre.reverse) := by
    simp [List.reverse_append, List.append_assoc]
  rw [hrev, takeWhile_append_stop ?hall ?hstop, List.reverse_reverse]
  case hall =>
    intro x hx
    have hxp : x ∈ post := List.mem_reverse.mp hx
    simp [h x hxp]
  case hstop => simp

theorem afterLastSep_no_sep {sep : Char} {s : List Char}
    (h : ∀ ch ∈ s, ch ≠ sep) :
    afterLastSep sep s = s := by
  unfold afterLastSep
  rw [takeWhile_all ?hall, List.reverse_reverse]
  case hall =>
    intro x hx
    have hxp : x ∈ s := List.mem_reverse.mp hx
    simp [h x hxp]

/-! ## Helper lemmas on the handler building blocks -/

@[simp] theorem prependEvents_state (p : List Event) (o : ROutcome) :
    (prependEvents p o).1 = o.1 := by
  obtain ⟨s, evs, r⟩ := o; rfl

@[simp] theorem prependEvents_events (p : List Event) (o : ROutcome) :
    (prependEvents p o).2.1 = p ++ o.2.1 := by
  obtain ⟨s, evs, r⟩ := o; rfl

@[simp] theorem prependEvents_res (p : List Event) (o : ROutcome) :
    (prependEvents p o).2.2 = o.2.2 := by
  obtain ⟨s, evs, r⟩ := o; rfl

@[simp] theorem prependEvents2_state (p : List Event) (o : R2Outcome) :
    (prependEvents2 p o).1 = o.1 := by
  obtain ⟨s, evs, r⟩ := o; rfl

@[simp] theorem prependEvents2_events (p : List Event) (o : R2Outcome) :
    (prependEvents2 p o).2.1 = p ++ o.2.1 := by
  obtain ⟨s, evs, r⟩ := o; rfl

@[simp] theorem prependEvents2_res (p : List Event) (o : R2Outcome) :
    (prependEvents2 p o).2.2 = o.2.2 := by
  obtain ⟨s, evs, r⟩ := o; rfl

theorem extract_texts_events (env : Env) (ext : List Char) (content : List Nat) :
    (extract_texts env ext content).1 = [] ∨
      (extract_texts env ext content).1 = [Event.extract] := by
  unfold extract_texts
  split_ifs <;>
    (try cases env.pdfExtract content) <;>
    (try cases env.docxExtract content) <;>
    (try cases env.utf8Decode content) <;> simp

theorem extract_texts_ok_events {env : Env} {ext : List Char} {content : List Nat}
    {ts : List (List Char)} (h : (extract_texts env ext content).2 = Except.ok ts) :
    (extract_texts env ext content).1 = [Event.extract] := by
  unfold extract_texts at h ⊢
  split_ifs at h ⊢ <;>
    (try cases env.pdfExtract content) <;>
    (try cases env.docxExtract content) <;>
    (try cases env.utf8Decode content) <;> simp_all

theorem extract_texts_unsupported {ext : List Char} (env : Env) (content : List Nat)
    (h1 : ext ≠ "pdf".toList) (h2 : ext ≠ "docx".toList) (h3 : ext ≠ "txt".toList) :
    extract_texts env ext content = ([], Except.error (Exc.http 400 unsupportedDetail)) := by
  unfold extract_texts
  rw [if_neg (by simpa using h1), if_neg (by simpa using h2), if_neg (by simpa using h3)]

theorem ingest_tail_unsupported (env : Env) (fn key : List Char) (content : List Nat)
    (s : RState) (ex : Bool) {ext : List Char}
    (h1 : ext ≠ "pdf".toList) (h2 : ext ≠ "docx".toList) (h3 : ext ≠ "txt".toList) :
    ingest_tail env fn ext key content s ex =
      (s, [], RResult.failure 500 (Exc.http 400 unsupportedDetail)) := by
  unfold ingest_tail
  rw [extract_texts_unsupported env content h1 h2 h3]

theorem ingest_tail2_unsupported (env : Env) (fn key : List Char) (content : List Nat)
    (s : R2State) (ut : List Char) {ext : List Char}
    (h1 : ext ≠ "pdf".toList) (h2 : ext ≠ "docx".toList) (h3 : ext ≠ "txt".toList) :
    ingest_tail2 env fn ext key content s ut =
      (s, [], RResult.failure 500 (Exc.http 400 unsupportedDetail)) := by
  unfold ingest_tail2
  rw [extract_texts_unsupported env content h1 h2 h3]

theorem ingest_tail_countP (env : Env) (fn ext key : List Char) (content : List Nat)
    (s : RState) (ex : Bool) :
    (ingest_tail env fn ext key content s ex).2.1.countP isS3Ev = 0 := by
  rcases hx : extract_texts env ext content with ⟨evs, r⟩
  have hevs0 : evs.countP isS3Ev = 0 := by
    have h := extract_texts_events env ext content
    rw [hx] at h
    rcases h with h | h <;> simp at h <;> simp [h, List.countP_cons, isS3Ev]
  unfold ingest_tail
  rw [hx]
  cases r with
  | error e => simpa using hevs0
  | ok texts =>
    cases hy : synthesize_answer env texts with
    | none => simp [hy, List.countP_append, hevs0, List.countP_cons, isS3Ev]
    | some answer =>
      cases hz : env.embedSer (joinNl texts) with
      | none => simp [hy, hz, List.countP_append, hevs0, List.countP_cons, isS3Ev]
      | some emb =>
        cases ex <;>
          simp [hy, hz, List.countP_append, hevs0, List.countP_cons, isS3Ev]

theorem ingest_tail2_countP (env : Env) (fn ext key : List Char) (content : List Nat)
    (s : R2State) (ut : List Char) :
    (ingest_tail2 env fn ext key content s ut).2.1.countP isS3Ev = 0 := by
  rcases hx : extract_texts env ext content with ⟨evs, r⟩
  have hevs0 : evs.countP isS3Ev = 0 := by
    have h := extract_texts_events env ext content
    rw [hx] at h
    rcases h with h | h <;> simp at h <;> simp [h, List.countP_cons, isS3Ev]
  unfold ingest_tail2
  rw [hx]
  cases r with
  | error e => simpa using hevs0
  | ok texts =>
    cases hy : synthesize_answer env texts with
    | none => simp [hy, List.countP_append, hevs0, List.countP_cons, isS3Ev]
    | some answer =>
      cases hz : env.embedSer (joinNl texts) with
      | none => simp [hy, hz, List.countP_append, hevs0, List.countP_cons, isS3Ev]
      | some emb =>
        simp only [hy, hz]
        split_ifs <;>
          simp [List.countP_append, hevs0, List.countP_cons, isS3Ev]

theorem ingest_tail_ok_events {env : Env} {fn ext key : List Char} {content : List Nat}
    {s : RState} {ex : Bool} {d a : List Char}
    (h : (ingest_tail env fn ext key content s ex).2.2 = RResult.ok d a) :
    (ingest_tail env fn ext key content s ex).2.1 =
      [Event.extract, Event.gemini, Event.cohere,
        if ex then Event.dbUpdate else Event.dbInsert] := by
  rcases hx : extract_texts env ext content with ⟨evs, r⟩
  unfold ingest_tail at h ⊢
  rw [hx] at h ⊢
  cases r with
  | error e => simp at h
  | ok texts =>
    have hevs : evs = [Event.extract] := by
      have hx2 : (extract_texts env ext content).2 = Except.ok texts := by rw [hx]
      have := extract_texts_ok_events hx2
      rw [hx] at this
      simpa using this
    cases hy : synthesize_answer env texts with
    | none => simp [hy] at h
    | some answer =>
      cases hz : env.embedSer (joinNl texts) with
      | none => simp [hy, hz] at h
      | some emb => cases ex <;> simp [hy, hz, hevs]

theorem ingest_tail2_ok_events {env : Env} {fn ext key : List Char} {content : List Nat}
    {s : R2State} {ut : List Char} {d a : List Char}
    (h : (ingest_tail2 env fn ext key content s ut).2.2 = RResult.ok d a) :
    (ingest_tail2 env fn ext key content s ut).2.1 =
      [Event.extract, Event.gemini, Event.cohere, Event.dbInsert] := by
  rcases hx : extract_texts env ext content with ⟨evs, r⟩
  unfold ingest_tail2 at h ⊢
  rw [hx] at h ⊢
  cases r with
  | error e => simp at h
  | ok texts =>
    have hevs : evs = [Event.extract] := by
      have hx2 : (extract_texts env ext content).2 = Except.ok texts := by rw [hx]
      have := extract_texts_ok_events hx2
      rw [hx] at this
      simpa using this
    cases hy : synthesize_answer env texts with
    | none => simp [hy] at h
    | some answer =>
      cases hz : env.embedSer (joinNl texts) with
      | none => simp [hy, hz] at h
      | some emb =>
        simp only [hy, hz] at h ⊢
        split_ifs at h ⊢ <;> simp_all

theorem ingest_tail_docs (env : Env) (fn ext key : List Char) (content : List Nat)
    (s : RState) (ex : Bool) :
    (ingest_tail env fn ext key content s ex).1.docs = s.docs ∨
      (∃ d : RecordDoc, d.file_name = fn ∧
        ((ex = true ∧ (ingest_tail env fn ext key content s ex).1.docs = update_one s.docs fn d) ∨
         (ex = false ∧ (ingest_tail env fn ext key content s ex).1.docs = s.docs ++ [d]))) := by
  rcases hx : extract_texts env ext content with ⟨evs, r⟩
  unfold ingest_tail
  rw [hx]
  cases r with
  | error e => exact Or.inl rfl
  | ok texts =>
    cases hy : synthesize_answer env texts with
    | none => exact Or.inl (by simp [hy])
    | some answer =>
      cases hz : env.embedSer (joinNl texts) with
      | none => exact Or.inl (by simp [hy, hz])
      | some emb =>
        refine Or.inr ⟨mk_document_data env fn key answer (joinNl texts) emb, rfl, ?_⟩
        cases ex with
        | true => exact Or.inl ⟨rfl, by simp [hy, hz]⟩
        | false => exact Or.inr ⟨rfl, by simp [hy, hz]⟩

/-! ## Database helper lemmas -/

theorem update_one_map_file_name {coll : List RecordDoc} {fn : List Char} {d : RecordDoc}
    (h : d.file_name = fn) :
    (update_one coll fn d).map RecordDoc.file_name = coll.map RecordDoc.file_name := by
  induction coll with
  | nil => rfl
  | cons r rs ih =>
    by_cases hr : r.file_name = fn
    · simp [update_one, hr, h]
    · simp [update_one, hr, ih]

theorem update_one_length (coll : List RecordDoc) (fn : List Char) (d : RecordDoc) :
    (update_one coll fn d).length = coll.length := by
  induction coll with
  | nil => rfl
  | cons r rs ih =>
    by_cases hr : r.file_name = fn
    · simp [update_one, hr]
    · simp [update_one, hr, ih]

theorem find_one_none_not_mem {coll : List RecordDoc} {fn : List Char}
    (h : find_one coll fn = none) : fn ∉ coll.map RecordDoc.file_name := by
  intro hmem
  obtain ⟨r, hr, hname⟩ := List.mem_map.mp hmem
  have := List.find?_eq_none.mp h r hr
  simp [hname] at this

/-! ## Handler-level helper lemmas -/

theorem not_mem_of_countP_zero {l : List Event} (h : l.countP isS3Ev = 0)
    (e : Event) (he : isS3Ev e = true) : e ∉ l := by
  intro hm
  exact absurd he (by simpa using List.countP_eq_zero.mp h e hm)

theorem resume_count_one (env : Env) (fn : List Char) (c : List Nat) (s : RState) :
    (extract_experience_skills env fn c s).2.1.countP isS3Ev = 1 := by
  simp only [extract_experience_skills]
  cases hf : find_one s.docs fn with
  | some r =>
    cases hs : s3Find s.s3 ("resumes/".toList ++ fn) with
    | none => simp [List.countP_cons, isS3Ev]
    | some stored =>
      simp [List.countP_append, List.countP_cons, isS3Ev, ingest_tail_countP]
  | none =>
    simp [List.countP_append, List.countP_cons, isS3Ev, ingest_tail_countP]

theorem resume2_count_one (env : Env) (fn : List Char) (c : List Nat) (ut : List Char)
    (s2 : R2State) :
    (extract_experience_skills2 env fn c ut s2).2.1.countP isS3Ev = 1 := by
  simp only [extract_experience_skills2]
  cases hf1 : find_one s2.students fn with
  | some r =>
    cases hs : s3Find s2.s3 ("resume/".toList ++ fn) with
    | none => simp [List.countP_cons, isS3Ev]
    | some stored =>
      simp [List.countP_append, List.countP_cons, isS3Ev, ingest_tail2_countP]
  | none =>
    cases hf2 : find_one s2.jobseekers fn with
    | some r =>
      cases hs : s3Find s2.s3 ("resume/".toList ++ fn) with
      | none => simp [List.countP_cons, isS3Ev]
      | some stored =>
        simp [List.countP_append, List.countP_cons, isS3Ev, ingest_tail2_countP]
    | none =>
      simp [List.countP_append, List.countP_cons, isS3Ev, ingest_tail2_countP]

theorem resume_step_nodup (env : Env) (fn : List Char) (c : List Nat) (s : RState)
    (h : (s.docs.map RecordDoc.file_name).Nodup) :
    (((extract_experience_skills env fn c s).1.docs).map RecordDoc.file_name).Nodup := by
  simp only [extract_experience_skills]
  cases hf : find_one s.docs fn with
  | some r =>
    cases hs : s3Find s.s3 ("resumes/".toList ++ fn) with
    | none => simpa using h
    | some stored =>
      rw [prependEvents_state]
      rcases ingest_tail_docs env fn (file_extension fn) ("resumes/".toList ++ fn)
          stored s true with hd | ⟨d, hdn, ⟨_, hup⟩ | ⟨hab, _⟩⟩
      · rw [hd]; exact h
      · rw [hup, update_one_map_file_name hdn]; exact h
      · exact absurd hab (by simp)
  | none =>
    rw [prependEvents_state]
    rcases ingest_tail_docs env fn (file_extension fn) ("resumes/".toList ++ fn)
        c { s with s3 := s3PutOp s.s3 ("resumes/".toList ++ fn) c } false with
      hd | ⟨d, hdn, ⟨hab, _⟩ | ⟨_, happ⟩⟩
    · rw [hd]; exact h
    · exact absurd hab (by simp)
    · rw [happ]
      have hperm := List.perm_append_singleton d s.docs
      have hperm2 : ((s.docs ++ [d]).map RecordDoc.file_name).Perm
          ((d :: s.docs).map RecordDoc.file_name) := hperm.map _
      rw [hperm2.nodup_iff]
      simp only [List.map_cons, List.nodup_cons]
      exact ⟨by rw [hdn]; exact find_one_none_not_mem hf, h⟩

theorem resume_step_length (env : Env) (fn : List Char) (c : List Nat) (s : RState)
    (h : (find_one s.docs fn).isSome = true) :
    ((extract_experience_skills env fn c s).1.docs).length = s.docs.length := by
  simp only [extract_experience_skills]
  cases hf : find_one s.docs fn with
  | none => rw [hf] at h; simp at h
  | some r =>
    cases hs : s3Find s.s3 ("resumes/".toList ++ fn) with
    | none => simp
    | some stored =>
      rw [prependEvents_state]
      rcases ingest_tail_docs env fn (file_extension fn) ("resumes/".toList ++ fn)
          stored s true with hd | ⟨d, hdn, ⟨_, hup⟩ | ⟨hab, _⟩⟩
      · rw [hd]
      · rw [hup, update_one_length]
      · exact absurd hab (by simp)

theorem countP_two_of_mem {l : List Event} {a b : Event} (hab : a ≠ b)
    (ha : isS3Ev a = true) (hb : isS3Ev b = true) (hma : a ∈ l) (hmb : b ∈ l) :
    2 ≤ l.countP isS3Ev := by
  induction l with
  | nil => cases hma
  | cons x xs ih =>
    rw [List.countP_cons]
    rcases List.mem_cons.mp hma with hax | hax
    · have hbx : b ∈ xs := by
        rcases List.mem_cons.mp hmb with hb2 | hb2
        · exact absurd (hax.trans hb2.symm) hab
        · exact hb2
      have h1 : 0 < xs.countP isS3Ev := List.countP_pos_iff.mpr ⟨b, hbx, hb⟩
      subst hax
      rw [if_pos ha]
      omega
    · rcases List.mem_cons.mp hmb with hb2 | hb2
      · have h1 : 0 < xs.countP isS3Ev := List.countP_pos_iff.mpr ⟨a, hax, ha⟩
        subst hb2
        rw [if_pos hb]
        omega
      · have h2 := ih hax hb2
        cases hx : isS3Ev x with
        | false => rw [if_neg (by simp)]; omega
        | true => rw [if_pos rfl]; omega

/-! ## Claim theorems -/

/-- Claim C2 (code bug): the spec says an upload whose declared extension is
not pdf, docx or txt gets a 400-class response, and each handler does raise
HTTPException(400, Unsupported file type) - but that raise sits inside the
handler try block whose except Exception re-raises HTTPException(500, ...),
and fastapi.HTTPException subclasses Exception, so the client receives 500.
Evaluated here at the failing input a.xyz for all three endpoints: the
response status is 500, with the intended 400 visible only as the caught
inner exception. -/
theorem C2_theorem :
    (extract_experience_skills trivEnv fnXyz [0] emptyR).2.2 =
        RResult.failure 500 (Exc.http 400 unsupportedDetail) ∧
      (extract_experience_skills2 trivEnv fnXyz [0] ("student".toList) emptyR2).2.2 =
        RResult.failure 500 (Exc.http 400 unsupportedDetail) ∧
      (upload_job_description trivEnv fnXyz [0] ([] : List JdRecord)).2 =
        JdResult.failure 500 (Exc.http 400 unsupportedDetail) :=
  ⟨by decide, by decide, by decide⟩

/-- Claim C6 (code bug): the spec says a txt upload whose bytes are not valid
UTF-8 gets a 400-class response.  In src/jd.py the decode failure raises
HTTPException(400) and in src/resume.py the UnicodeDecodeError propagates
bare; in both files the outer except Exception converts the exception into a
500 response.  Evaluated at the failing input a.txt with the byte 255 under
the oracle in which UTF-8 decoding fails. -/
theorem C6_theorem :
    (upload_job_description noDecodeEnv fnTxt [255] ([] : List JdRecord)).2 =
        JdResult.failure 500 (Exc.http 400 jdDecodeFailDetail) ∧
      (extract_experience_skills noDecodeEnv fnTxt [255] emptyR).2.2 =
        RResult.failure 500 (Exc.lib decodeLibDetail) :=
  ⟨by decide, by decide⟩

/-- Claim C7 (code bug): for a user_type that is neither student nor
jobseeker after lowering and stripping, src/resume2.py raises
HTTPException(400) and indeed writes to neither collection - but the outer
except Exception converts the 400 into a 500 response.  Evaluated at the
failing input user_type manager with a fresh a.pdf upload: the response
status is 500 (the intended 400 only the caught inner exception), and both
collections are left empty. -/
theorem C7_theorem :
    (extract_experience_skills2 trivEnv fnPdf [1] ("manager".toList) emptyR2).2.2 =
        RResult.failure 500 (Exc.http 400 invalidUserTypeDetail) ∧
      (extract_experience_skills2 trivEnv fnPdf [1] ("manager".toList) emptyR2).1.students = [] ∧
      (extract_experience_skills2 trivEnv fnPdf [1] ("manager".toList) emptyR2).1.jobseekers = [] :=
  ⟨by decide, by decide, by decide⟩

/-- Claim C9 (confirmed): when a marker is present but the extracted value
strips to the empty string, the persisted field is N/A rather than the empty
string, because the Python expression (x if x else N/A) treats the empty
string as falsy. -/
theorem C9_theorem :
    (∀ (env : Env) (fn key answer allc emb : List Char),
      skills_match answer = some [] →
      (mk_document_data env fn key answer allc emb).technical_skills = NAValue) ∧
    (∀ (env : Env) (fn key answer allc emb : List Char),
      experience_match answer = some [] →
      (mk_document_data env fn key answer allc emb).years_of_experience = NAValue) := by
  constructor
  · intro env fn key answer allc emb h
    simp [mk_document_data, fieldValue, h]
  · intro env fn key answer allc emb h
    simp [mk_document_data, fieldValue, h]

/-- Witness for C9: the response consisting of a bare marker strips to the
empty value and persists as N/A. -/
theorem C9_witness :
    (mk_document_data trivEnv fnPdf fnPdf ("Skills:".toList) [] []).technical_skills = NAValue ∧
    (mk_document_data trivEnv fnPdf fnPdf ("Years of Experience:".toList) []
        []).years_of_experience = NAValue :=
  ⟨C9_theorem.1 trivEnv fnPdf fnPdf ("Skills:".toList) [] [] (by decide),
   C9_theorem.2 trivEnv fnPdf fnPdf ("Years of Experience:".toList) [] [] (by decide)⟩

/-- Claim C10 (confirmed): the declared extension is the lowercased part of
the filename after the last dot; a filename with no dot contributes its
entire lowercased name, so the file named PDF is dispatched to the pdf
branch rather than rejected. -/
theorem C10_theorem :
    (∀ pre post : List Char, (∀ ch ∈ post, ch ≠ '.') →
      file_extension (pre ++ ('.' :: post)) = pyLower post) ∧
    (∀ name : List Char, (∀ ch ∈ name, ch ≠ '.') →
      file_extension name = pyLower name) ∧
    file_extension ("PDF".toList) = "pdf".toList ∧
    (∀ (env : Env) (c : List Nat) (ts : List (List Char)),
      env.pdfExtract c = some ts →
      (extract_texts env (file_extension ("PDF".toList)) c).2 = Except.ok ts) := by
  refine ⟨?p1, ?p2, by decide, ?p4⟩
  case p1 =>
    intro pre post h
    unfold file_extension
    rw [afterLastSep_append h]
  case p2 =>
    intro name h
    unfold file_extension
    rw [afterLastSep_no_sep h]
  case p4 =>
    intro env c ts h
    have he : file_extension ("PDF".toList) = "pdf".toList := by decide
    rw [he]
    simp [extract_texts, h]

/-- Witness for C10: a filename with a final mixed-case extension, the
dotless filename PDF, and its dispatch into the pdf branch. -/
theorem C10_witness :
    file_extension (("resume".toList) ++ ('.' :: ("PdF".toList))) = pyLower ("PdF".toList) ∧
    file_extension ("PDF".toList) = pyLower ("PDF".toList) ∧
    (extract_texts trivEnv (file_extension ("PDF".toList)) [1]).2 =
      Except.ok (["resume body".toList]) :=
  ⟨C10_theorem.1 ("resume".toList) ("PdF".toList) (by decide),
   C10_theorem.2.1 ("PDF".toList) (by decide),
   C10_theorem.2.2.2 trivEnv [1] (["resume body".toList]) (by decide)⟩

/-- Counterexample for claim C4: the claim says a response containing
Skills: derives, for that field, the remainder of the response after the
marker, trimmed.  For the response consisting of the bare marker the
remainder strips to the empty string, yet the derived field is N/A, because
the code routes the value through (x if x else N/A) and the empty string is
falsy. -/
theorem C4_counterexample :
    fieldValue (skills_match ("Skills:".toList)) ≠
      pyStrip (afterFirst skillsMarker ("Skills:".toList)) := by decide

/-- Claim C4 (corrected): parsing of the generation response.  For a
response of the form pre ++ marker ++ tail in which the marker occurs
neither before that occurrence nor in tail, the years field is the part of
tail up to the first newline, stripped, and the skills field is all of tail
stripped - in both cases defaulted to N/A when the stripped value is empty
(fieldValue (some v)).  When a marker occurs again in the remainder, the
code keeps only the segment before the second occurrence, because Python
split(m)[1] ends at the next occurrence.  A response missing a marker
yields N/A, and the spec example derives exactly 5 and Python, Go. -/
theorem C4_theorem :
    (∀ pre tail : List Char,
      pyIn yearsMarker (pre ++ yearsMarker.dropLast) = false →
      pyIn yearsMarker tail = false →
      fieldValue (experience_match (pre ++ (yearsMarker ++ tail))) =
        fieldValue (some (pyStrip (beforeFirst newlineMarker tail)))) ∧
    (∀ pre tail : List Char,
      pyIn skillsMarker (pre ++ skillsMarker.dropLast) = false →
      pyIn skillsMarker tail = false →
      fieldValue (skills_match (pre ++ (skillsMarker ++ tail))) =
        fieldValue (some (pyStrip tail))) ∧
    (∀ ans : List Char, pyIn yearsMarker ans = false →
      fieldValue (experience_match ans) = NAValue) ∧
    (∀ ans : List Char, pyIn skillsMarker ans = false →
      fieldValue (skills_match ans) = NAValue) ∧
    fieldValue (experience_match sampleAnswer) = "5".toList ∧
    fieldValue (skills_match sampleAnswer) = "Python, Go".toList := by
  refine ⟨?p1, ?p2, ?p3, ?p4, by decide, by decide⟩
  case p1 =>
    intro pre tail h1 h2
    have hin : pyIn yearsMarker (pre ++ (yearsMarker ++ tail)) = true :=
      pyIn_append_marker yearsMarker pre tail
    unfold experience_match
    rw [if_pos hin, afterFirst_pre_marker yearsMarker pre tail h1,
      beforeFirst_eq_self_of_not_pyIn h2]
  case p2 =>
    intro pre tail h1 h2
    have hin : pyIn skillsMarker (pre ++ (skillsMarker ++ tail)) = true :=
      pyIn_append_marker skillsMarker pre tail
    unfold skills_match
    rw [if_pos hin, afterFirst_pre_marker skillsMarker pre tail h1,
      beforeFirst_eq_self_of_not_pyIn h2]
  case p3 =>
    intro ans h
    unfold experience_match
    rw [if_neg (by simp [h])]
    rfl
  case p4 =>
    intro ans h
    unfold skills_match
    rw [if_neg (by simp [h])]
    rfl

/-- Witness for C4: the spec example split at each marker, and a
marker-free response. -/
theorem C4_witness :
    fieldValue (experience_match ([] ++ (yearsMarker ++ (" 5\nSkills: Python, Go".toList)))) =
      fieldValue (some (pyStrip (beforeFirst newlineMarker (" 5\nSkills: Python, Go".toList)))) ∧
    fieldValue (skills_match (("Years of Experience: 5\n".toList) ++
        (skillsMarker ++ (" Python, Go".toList)))) =
      fieldValue (some (pyStrip (" Python, Go".toList))) ∧
    fieldValue (experience_match ("no markers in this response".toList)) = NAValue :=
  ⟨C4_theorem.1 [] (" 5\nSkills: Python, Go".toList) (by decide) (by decide),
   C4_theorem.2.1 ("Years of Experience: 5\n".toList) (" Python, Go".toList)
     (by decide) (by decide),
   C4_theorem.2.2.1 ("no markers in this response".toList) (by decide)⟩

/-- Counterexample for claim C1: the claim says a second submission of the
same fileName updates the existing record in place in every resume-ingestion
endpoint.  In the two-collection variant both submissions succeed and the
second inserts a duplicate: after submitting a.pdf twice as a student the
students collection holds two records with that file name. -/
theorem C1_counterexample :
    (extract_experience_skills2 trivEnv fnPdf [1] ("student".toList) emptyR2).2.2 =
        RResult.ok fnPdf sampleAnswer ∧
      secondRun2.2.2 = RResult.ok fnPdf sampleAnswer ∧
      (secondRun2.1.students.filter (fun r => r.file_name == fnPdf)).length = 2 :=
  ⟨by decide, by decide, by decide⟩

/-- Claim C1 (corrected): the at-most-one-record-per-fileName invariant
holds for the single-collection endpoint of src/resume.py: any sequence of
requests preserves distinctness of the stored file names (starting from a
state where they are distinct, such as the empty collection), and a request
whose fileName already has a record leaves the number of records unchanged
(it updates in place).  The two-collection endpoint of src/resume2.py
violates the invariant, inserting a duplicate on re-submission. -/
theorem C1_theorem :
    (∀ (reqs : List (Env × List Char × List Nat)) (s0 : RState),
      ((s0.docs.map RecordDoc.file_name).Nodup) →
      (((runSeq reqs s0).docs.map RecordDoc.file_name).Nodup)) ∧
    (∀ (env : Env) (fn : List Char) (c : List Nat) (s : RState),
      (find_one s.docs fn).isSome = true →
      ((extract_experience_skills env fn c s).1.docs).length = s.docs.length) := by
  constructor
  · intro reqs
    induction reqs with
    | nil => intro s0 h; simpa [runSeq] using h
    | cons hd tl ih =>
      intro s0 h
      obtain ⟨env, fn, c⟩ := hd
      simp only [runSeq]
      exact ih _ (resume_step_nodup env fn c s0 h)
  · exact resume_step_length

/-- Witness for C1: a two-request sequence on the empty store keeps the file
names distinct, and re-submitting a.pdf to a store already holding it keeps
the record count at one. -/
theorem C1_witness :
    (((runSeq [(trivEnv, fnPdf, [1]), (trivEnv, fnPdf, [2])] emptyR).docs.map
        RecordDoc.file_name).Nodup) ∧
    ((extract_experience_skills trivEnv fnPdf [2] oneDocState).1.docs).length =
      oneDocState.docs.length :=
  ⟨C1_theorem.1 [(trivEnv, fnPdf, [1]), (trivEnv, fnPdf, [2])] emptyR (by decide),
   C1_theorem.2 trivEnv fnPdf [2] oneDocState (by decide)⟩

/-- Counterexample for claim C3: the claim says a request with an
unsupported extension leaves the object store exactly as it was.  Uploading
the fresh file a.xyz to an empty store changes the store: the request
performs the S3 put (the storage step precedes the extension check), and
only then fails on the extension. -/
theorem C3_counterexample :
    (extract_experience_skills trivEnv fnXyz [7] emptyR).1.s3 ≠ emptyR.s3 ∧
      (extract_experience_skills trivEnv fnXyz [7] emptyR).2.1 =
        [Event.dbFind, Event.s3Put] :=
  ⟨by decide, by decide⟩

/-- Claim C3 (corrected): for an unsupported declared extension, no record
collection is written - the documents collection of resume.py, both
collections of resume2.py and the job collection of jd.py are left exactly
as they were - and the handler answers with an error; but in the two resume
endpoints the object-storage operation is not skipped: exactly one S3
operation still happens, because storage precedes the extension check. -/
theorem C3_theorem :
    ∀ (env : Env) (fn : List Char) (c : List Nat) (s : RState) (s2 : R2State)
      (ut : List Char) (coll : List JdRecord),
      file_extension fn ≠ "pdf".toList →
      file_extension fn ≠ "docx".toList →
      file_extension fn ≠ "txt".toList →
      ((extract_experience_skills env fn c s).1.docs = s.docs ∧
        (∃ e, (extract_experience_skills env fn c s).2.2 = RResult.failure 500 e) ∧
        (extract_experience_skills env fn c s).2.1.countP isS3Ev = 1) ∧
      ((extract_experience_skills2 env fn c ut s2).1.students = s2.students ∧
        (extract_experience_skills2 env fn c ut s2).1.jobseekers = s2.jobseekers ∧
        (∃ e, (extract_experience_skills2 env fn c ut s2).2.2 = RResult.failure 500 e) ∧
        (extract_experience_skills2 env fn c ut s2).2.1.countP isS3Ev = 1) ∧
      ((upload_job_description env fn c coll).1 = coll ∧
        (∃ e, (upload_job_description env fn c coll).2 = JdResult.failure 500 e)) := by
  intro env fn c s s2 ut coll h1 h2 h3
  refine ⟨?r1, ?r2, ?r3⟩
  case r1 =>
    refine ⟨?d1, ?e1, resume_count_one env fn c s⟩
    case d1 =>
      rcases hf : find_one s.docs fn with _ | r
      · simp only [extract_experience_skills, hf]
        rw [ingest_tail_unsupported env fn ("resumes/".toList ++ fn) c
          { s with s3 := s3PutOp s.s3 ("resumes/".toList ++ fn) c } false h1 h2 h3]
        rfl
      · rcases hs : s3Find s.s3 ("resumes/".toList ++ fn) with _ | stored
        · simp only [extract_experience_skills, hf, hs]
        · simp only [extract_experience_skills, hf, hs]
          rw [ingest_tail_unsupported env fn ("resumes/".toList ++ fn) stored s true h1 h2 h3]
          rfl
    case e1 =>
      rcases hf : find_one s.docs fn with _ | r
      · simp only [extract_experience_skills, hf]
        rw [ingest_tail_unsupported env fn ("resumes/".toList ++ fn) c
          { s with s3 := s3PutOp s.s3 ("resumes/".toList ++ fn) c } false h1 h2 h3]
        exact ⟨_, rfl⟩
      · rcases hs : s3Find s.s3 ("resumes/".toList ++ fn) with _ | stored
        · simp only [extract_experience_skills, hf, hs]
          exact ⟨_, rfl⟩
        · simp only [extract_experience_skills, hf, hs]
          rw [ingest_tail_unsupported env fn ("resumes/".toList ++ fn) stored s true h1 h2 h3]
          exact ⟨_, rfl⟩
  case r2 =>
    refine ⟨?d2, ?d3, ?e2, resume2_count_one env fn c ut s2⟩
    all_goals
      rcases hf1 : find_one s2.students fn with _ | r
      case some =>
        rcases hs : s3Find s2.s3 ("resume/".toList ++ fn) with _ | stored
        · simp only [extract_experience_skills2, hf1, hs]
          try first | rfl | exact ⟨_, rfl⟩
        · simp only [extract_experience_skills2, hf1, hs]
          try rw [ingest_tail2_unsupported env fn ("resume/".toList ++ fn) stored s2 ut h1 h2 h3]
          try first | rfl | exact ⟨_, rfl⟩
      case none =>
        rcases hf2 : find_one s2.jobseekers fn with _ | r
        case some =>
          rcases hs : s3Find s2.s3 ("resume/".toList ++ fn) with _ | stored
          · simp only [extract_experience_skills2, hf1, hf2, hs]
            try first | rfl | exact ⟨_, rfl⟩
          · simp only [extract_experience_skills2, hf1, hf2, hs]
            try rw [ingest_tail2_unsupported env fn ("resume/".toList ++ fn) stored s2 ut h1 h2 h3]
            try first | rfl | exact ⟨_, rfl⟩
        case none =>
          simp only [extract_experience_skills2, hf1, hf2]
          try rw [ingest_tail2_unsupported env fn ("resume/".toList ++ fn) c
            { s2 with s3 := s3PutOp s2.s3 ("resume/".toList ++ fn) c } ut h1 h2 h3]
          try first | rfl | exact ⟨_, rfl⟩
  case r3 =>
    simp only [upload_job_description]
    rw [if_neg (by simpa using h2), if_neg (by simpa using h1), if_neg (by simpa using h3)]
    exact ⟨rfl, ⟨_, rfl⟩⟩

/-- Witness for C3: the unsupported upload a.xyz on the empty stores. -/
theorem C3_witness :
    ((extract_experience_skills trivEnv fnXyz [0] emptyR).1.docs = emptyR.docs ∧
      (∃ e, (extract_experience_skills trivEnv fnXyz [0] emptyR).2.2 =
        RResult.failure 500 e) ∧
      (extract_experience_skills trivEnv fnXyz [0] emptyR).2.1.countP isS3Ev = 1) ∧
    ((extract_experience_skills2 trivEnv fnXyz [0] ("student".toList) emptyR2).1.students =
        emptyR2.students ∧
      (extract_experience_skills2 trivEnv fnXyz [0] ("student".toList) emptyR2).1.jobseekers =
        emptyR2.jobseekers ∧
      (∃ e, (extract_experience_skills2 trivEnv fnXyz [0] ("student".toList) emptyR2).2.2 =
        RResult.failure 500 e) ∧
      (extract_experience_skills2 trivEnv fnXyz [0]
        ("student".toList) emptyR2).2.1.countP isS3Ev = 1) ∧
    ((upload_job_description trivEnv fnXyz [0] ([] : List JdRecord)).1 = [] ∧
      (∃ e, (upload_job_description trivEnv fnXyz [0] ([] : List JdRecord)).2 =
        JdResult.failure 500 e)) :=
  C3_theorem trivEnv fnXyz [0] emptyR emptyR2 ("student".toList) []
    (by decide) (by decide) (by decide)

/-- Claim C5 (confirmed): every resume-ingestion request performs exactly
one object-storage operation, never a fetch and an upload together; and a
request whose fileName already has a record performs the fetch, not the
upload, and its whole outcome is independent of the freshly uploaded bytes
(the fetched artifact is what reaches extraction). -/
theorem C5_theorem :
    (∀ (env : Env) (fn : List Char) (c : List Nat) (s : RState),
      (extract_experience_skills env fn c s).2.1.countP isS3Ev = 1) ∧
    (∀ (env : Env) (fn : List Char) (c : List Nat) (s : RState),
      ¬(Event.s3Get ∈ (extract_experience_skills env fn c s).2.1 ∧
        Event.s3Put ∈ (extract_experience_skills env fn c s).2.1)) ∧
    (∀ (env : Env) (fn : List Char) (c : List Nat) (s : RState),
      (find_one s.docs fn).isSome = true →
      Event.s3Put ∉ (extract_experience_skills env fn c s).2.1 ∧
      Event.s3Get ∈ (extract_experience_skills env fn c s).2.1 ∧
      ∀ c2 : List Nat,
        extract_experience_skills env fn c s = extract_experience_skills env fn c2 s) ∧
    (∀ (env : Env) (fn : List Char) (c : List Nat) (ut : List Char) (s2 : R2State),
      (extract_experience_skills2 env fn c ut s2).2.1.countP isS3Ev = 1) ∧
    (∀ (env : Env) (fn : List Char) (c : List Nat) (ut : List Char) (s2 : R2State),
      (find_one s2.students fn).isSome = true ∨ (find_one s2.jobseekers fn).isSome = true →
      Event.s3Put ∉ (extract_experience_skills2 env fn c ut s2).2.1 ∧
      ∀ c2 : List Nat,
        extract_experience_skills2 env fn c ut s2 = extract_experience_skills2 env fn c2 ut s2) := by
  refine ⟨resume_count_one, ?p2, ?p3, resume2_count_one, ?p5⟩
  case p2 =>
    intro env fn c s hboth
    have h2 := countP_two_of_mem (by decide : Event.s3Get ≠ Event.s3Put) rfl rfl
      hboth.1 hboth.2
    rw [resume_count_one] at h2
    omega
  case p3 =>
    intro env fn c s h
    rcases hf : find_one s.docs fn with _ | r
    · rw [hf] at h; simp at h
    · refine ⟨?np, ?gp, ?ind⟩
      case np =>
        rcases hs : s3Find s.s3 ("resumes/".toList ++ fn) with _ | stored
        · simp only [extract_experience_skills, hf, hs]
          decide
        · simp only [extract_experience_skills, hf, hs, prependEvents_events]
          intro hm
          rcases List.mem_append.mp hm with hm1 | hm1
          · simp at hm1
          · exact not_mem_of_countP_zero
              (ingest_tail_countP env fn (file_extension fn) ("resumes/".toList ++ fn)
                stored s true) Event.s3Put rfl hm1
      case gp =>
        rcases hs : s3Find s.s3 ("resumes/".toList ++ fn) with _ | stored
        · simp only [extract_experience_skills, hf, hs]
          decide
        · simp only [extract_experience_skills, hf, hs, prependEvents_events]
          exact List.mem_append.mpr (Or.inl (by decide))
      case ind =>
        intro c2
        simp only [extract_experience_skills, hf]
  case p5 =>
    intro env fn c ut s2 h
    rcases hf1 : find_one s2.students fn with _ | r
    case some =>
      constructor
      · rcases hs : s3Find s2.s3 ("resume/".toList ++ fn) with _ | stored
        · simp only [extract_experience_skills2, hf1, hs]
          decide
        · simp only [extract_experience_skills2, hf1, hs, prependEvents2_events]
          intro hm
          rcases List.mem_append.mp hm with hm1 | hm1
          · simp at hm1
          · exact not_mem_of_countP_zero
              (ingest_tail2_countP env fn (file_extension fn) ("resume/".toList ++ fn)
                stored s2 ut) Event.s3Put rfl hm1
      · intro c2
        simp only [extract_experience_skills2, hf1]
    case none =>
      rcases hf2 : find_one s2.jobseekers fn with _ | r
      case none =>
        rw [hf1, hf2] at h
        simp at h
      case some =>
        constructor
        · rcases hs : s3Find s2.s3 ("resume/".toList ++ fn) with _ | stored
          · simp only [extract_experience_skills2, hf1, hf2, hs]
            decide
          · simp only [extract_experience_skills2, hf1, hf2, hs, prependEvents2_events]
            intro hm
            rcases List.mem_append.mp hm with hm1 | hm1
            · simp at hm1
            · exact not_mem_of_countP_zero
                (ingest_tail2_countP env fn (file_extension fn) ("resume/".toList ++ fn)
                  stored s2 ut) Event.s3Put rfl hm1
        · intro c2
          simp only [extract_experience_skills2, hf1, hf2]

/-- Witness for C5: the count on a fresh upload, and the fetch-only
behaviour with content-independence on the store already holding a.pdf. -/
theorem C5_witness :
    (extract_experience_skills trivEnv fnPdf [1] emptyR).2.1.countP isS3Ev = 1 ∧
    Event.s3Put ∉ (extract_experience_skills trivEnv fnPdf [9] oneDocState).2.1 ∧
    extract_experience_skills trivEnv fnPdf [9] oneDocState =
      extract_experience_skills trivEnv fnPdf [123] oneDocState :=
  ⟨C5_theorem.1 trivEnv fnPdf [1] emptyR,
   (C5_theorem.2.2.1 trivEnv fnPdf [9] oneDocState (by decide)).1,
   (C5_theorem.2.2.1 trivEnv fnPdf [9] oneDocState (by decide)).2.2 [123]⟩

/-- Counterexample for claim C8: the claim says text extraction precedes
the record-existence check.  In the successful fresh upload of a.pdf the
trace is dbFind, s3Put, extract, gemini, cohere, dbInsert: the existence
check is the first event and extraction only the third, so the claimed
order is false. -/
theorem C8_counterexample :
    (extract_experience_skills trivEnv fnPdf [1] emptyR).2.2 =
        RResult.ok fnPdf sampleAnswer ∧
      (extract_experience_skills trivEnv fnPdf [1] emptyR).2.1 =
        [Event.dbFind, Event.s3Put, Event.extract, Event.gemini, Event.cohere,
          Event.dbInsert] ∧
      ¬(posOf Event.extract (extract_experience_skills trivEnv fnPdf [1] emptyR).2.1 <
          posOf Event.dbFind (extract_experience_skills trivEnv fnPdf [1] emptyR).2.1) :=
  ⟨by decide, by decide, by decide⟩

/-- Claim C8 (corrected): on every successful request the steps run
strictly in the order record-existence check(s), object-storage operation,
text extraction, generation call, embedding call, persistence write - the
storage step precedes extraction, not the other way around as the spec
orders them. -/
theorem C8_theorem :
    (∀ (env : Env) (fn : List Char) (c : List Nat) (s : RState) (d a : List Char),
      (extract_experience_skills env fn c s).2.2 = RResult.ok d a →
      (extract_experience_skills env fn c s).2.1 =
        [Event.dbFind, Event.s3Get, Event.extract, Event.gemini, Event.cohere,
          Event.dbUpdate] ∨
      (extract_experience_skills env fn c s).2.1 =
        [Event.dbFind, Event.s3Put, Event.extract, Event.gemini, Event.cohere,
          Event.dbInsert]) ∧
    (∀ (env : Env) (fn : List Char) (c : List Nat) (ut : List Char) (s2 : R2State)
      (d a : List Char),
      (extract_experience_skills2 env fn c ut s2).2.2 = RResult.ok d a →
      ∃ fevs op, (fevs = [Event.dbFind] ∨ fevs = [Event.dbFind, Event.dbFind]) ∧
        (op = Event.s3Get ∨ op = Event.s3Put) ∧
        (extract_experience_skills2 env fn c ut s2).2.1 =
          fevs ++ (op :: [Event.extract, Event.gemini, Event.cohere, Event.dbInsert])) := by
  constructor
  · intro env fn c s d a h
    rcases hf : find_one s.docs fn with _ | r
    · simp only [extract_experience_skills, hf, prependEvents_res] at h
      simp only [extract_experience_skills, hf, prependEvents_events]
      rw [ingest_tail_ok_events h]
      right
      rfl
    · rcases hs : s3Find s.s3 ("resumes/".toList ++ fn) with _ | stored
      · simp only [extract_experience_skills, hf, hs] at h
        exact absurd h (by simp)
      · simp only [extract_experience_skills, hf, hs, prependEvents_res] at h
        simp only [extract_experience_skills, hf, hs, prependEvents_events]
        rw [ingest_tail_ok_events h]
        left
        rfl
  · intro env fn c ut s2 d a h
    rcases hf1 : find_one s2.students fn with _ | r
    case some =>
      rcases hs : s3Find s2.s3 ("resume/".toList ++ fn) with _ | stored
      · simp only [extract_experience_skills2, hf1, hs] at h
        exact absurd h (by simp)
      · simp only [extract_experience_skills2, hf1, hs, prependEvents2_res] at h
        simp only [extract_experience_skills2, hf1, hs, prependEvents2_events]
        rw [ingest_tail2_ok_events h]
        exact ⟨[Event.dbFind], Event.s3Get, Or.inl rfl, Or.inl rfl, rfl⟩
    case none =>
      rcases hf2 : find_one s2.jobseekers fn with _ | r
      case some =>
        rcases hs : s3Find s2.s3 ("resume/".toList ++ fn) with _ | stored
        · simp only [extract_experience_skills2, hf1, hf2, hs] at h
          exact absurd h (by simp)
        · simp only [extract_experience_skills2, hf1, hf2, hs, prependEvents2_res] at h
          simp only [extract_experience_skills2, hf1, hf2, hs, prependEvents2_events]
          rw [ingest_tail2_ok_events h]
          exact ⟨[Event.dbFind, Event.dbFind], Event.s3Get, Or.inr rfl, Or.inl rfl, rfl⟩
      case none =>
        simp only [extract_experience_skills2, hf1, hf2, prependEvents2_res] at h
        simp only [extract_experience_skills2, hf1, hf2, prependEvents2_events]
        rw [ingest_tail2_ok_events h]
        exact ⟨[Event.dbFind, Event.dbFind], Event.s3Put, Or.inr rfl, Or.inr rfl, rfl⟩

/-- Witness for C8: the fresh a.pdf ingestion succeeds, so its trace is one
of the two canonical orders. -/
theorem C8_witness :
    (extract_experience_skills trivEnv fnPdf [1] emptyR).2.1 =
        [Event.dbFind, Event.s3Get, Event.extract, Event.gemini, Event.cohere,
          Event.dbUpdate] ∨
      (extract_experience_skills trivEnv fnPdf [1] emptyR).2.1 =
        [Event.dbFind, Event.s3Put, Event.extract, Event.gemini, Event.cohere,
          Event.dbInsert] :=
  C8_theorem.1 trivEnv fnPdf [1] emptyR fnPdf sampleAnswer (by decide)

end ResumeMatching
